import Mathlib

/-!
Shallow embedding of the stream-relay / process-supervisor / buffer-resolver
utilities of `opyplus` (files `opyplus/util.py` and `oplus/util.py`), together
with theorems settling the frozen claims about them.

External capabilities (filesystem, text decoding, encoding detection) are
modelled as explicit function parameters; streams are modelled by the sequence
of read results they produce, sinks by the sequence of events they receive.
-/

namespace Opyplus

/-- One `readline()` call on the subprocess stream either yields a line
(the empty string being the end-of-stream marker) or raises a
`UnicodeDecodeError`. -/
inductive ReadResult where
  | line (s : String)
  | decodeError
  deriving DecidableEq, Repr

/-- An event observed by a destination sink: a `write` call or a `flush` call. -/
inductive SinkEvent where
  | write (s : String)
  | flush
  deriving DecidableEq, Repr

/-- The content the relay forwards for one read: the line itself, or the fixed
placeholder when decoding raised (`content = "unicode decode error"` in
`_redirect_stream`). -/
def readContent : ReadResult → String
  | .line s => s
  | .decodeError => "unicode decode error"

/-- Output of one relay run: events received by the destination sink, and the
number of decode errors logged via `logger.error`. -/
structure RelayOut where
  events : List SinkEvent
  loggedErrors : Nat
  deriving DecidableEq, Repr

/-- Embedding of `_redirect_stream(src, dst, stop_event, freq)` for a session
whose stop event is never set (the pure draining behaviour): loop reading one
line; on `UnicodeDecodeError` log and substitute the placeholder; break when
the content is the empty string; otherwise write the content to `dst` and
flush `dst` if it has a `flush` attribute.  `reads` is the sequence of results
the source produces; once exhausted, `readline` returns `""` (end of stream). -/
def redirectStreamRun (hasFlush : Bool) : List ReadResult → RelayOut
  | [] => ⟨[], 0⟩
  | r :: rest =>
    let content := readContent r
    let logged := match r with
      | .decodeError => 1
      | .line _ => 0
    if content = "" then ⟨[], logged⟩
    else
      let tail := redirectStreamRun hasFlush rest
      ⟨SinkEvent.write content :: (if hasFlush then [SinkEvent.flush] else []) ++ tail.events,
       logged + tail.loggedErrors⟩

/-- The prefix of the read sequence that the relay actually consumes and
forwards: everything up to (excluding) the first read whose content is the
empty-string end-of-stream marker. -/
def consumedReads : List ReadResult → List ReadResult
  | [] => []
  | r :: rest => if readContent r = "" then [] else r :: consumedReads rest

/-- Events a single forwarded read contributes to the sink: its content is
written, then the sink is flushed when it exposes a flush capability. -/
def forwardEvents (hasFlush : Bool) (r : ReadResult) : List SinkEvent :=
  SinkEvent.write (readContent r) :: (if hasFlush then [SinkEvent.flush] else [])

/-- Number of decode errors in a read sequence. -/
def countDecodeErrors : List ReadResult → Nat
  | [] => 0
  | .decodeError :: rest => 1 + countDecodeErrors rest
  | .line _ :: rest => countDecodeErrors rest

/-- Sink events expected for a sequence of forwarded reads, in order. -/
def relayEventsOf (hasFlush : Bool) : List ReadResult → List SinkEvent
  | [] => []
  | r :: rest => forwardEvents hasFlush r ++ relayEventsOf hasFlush rest

/-- State of one relay task between loop iterations: the reads not yet
performed, the events emitted to the destination so far, and whether the loop
has exited. -/
structure RelayState where
  pending : List ReadResult
  emitted : List SinkEvent
  stopped : Bool
  deriving DecidableEq, Repr

/-- One iteration of the `_redirect_stream` loop as a step of a state machine,
with the momentary value of the stop event passed in: the flag is checked
before the read; if set, the loop exits without reading; otherwise one read is
performed and handled as in `redirectStreamRun`. -/
def relayStep (hasFlush : Bool) (flagSet : Bool) (s : RelayState) : RelayState :=
  if s.stopped then s
  else if flagSet then { s with stopped := true }
  else match s.pending with
    | [] => { s with stopped := true }
    | r :: rest =>
      let content := readContent r
      if content = "" then { s with pending := rest, stopped := true }
      else { pending := rest,
             emitted := s.emitted ++ forwardEvents hasFlush r,
             stopped := false }

/-- Embedding of the `finally` clause of `redirect_stream`: releasing the
handle sets the stop event and then joins the relay task; the task observes
the set flag at its next loop boundary and exits. -/
def relayRelease (hasFlush : Bool) (s : RelayState) : RelayState :=
  relayStep hasFlush true s

/-- Abstraction of one spawned child process, as seen by `run_subprocess`:
the read sequences its captured stdout and stderr pipes produce, how many
times `sub_p.wait(timeout=beat_freq)` raises `TimeoutExpired` before the
process terminates, and its exit code. -/
structure Proc where
  stdoutReads : List ReadResult
  stderrReads : List ReadResult
  timeoutsBeforeExit : Nat
  returncode : Int
  deriving DecidableEq, Repr

/-- Default value of the `message` parameter of `run_subprocess`. -/
def defaultBeatMessage : String := "subprocess is still running\n"

/-- Externally visible side effects of one `run_subprocess` call: the number
of relay threads started, the relay events delivered to the stdout and stderr
sinks, the heartbeat messages the wait loop itself writes to the stdout sink,
and the number of `sys.stdout.flush()` calls the wait loop performs. -/
structure RunTrace where
  relaysStarted : Nat
  stdoutRelayEvents : List SinkEvent
  stderrRelayEvents : List SinkEvent
  heartbeats : List String
  sysStdoutFlushes : Nat
  deriving DecidableEq, Repr

/-- The wait loop of `run_subprocess` when `beat_freq` is not none: each
`TimeoutExpired` writes `message` to the stdout sink and flushes `sys.stdout`
when it has a `flush` attribute; after `timeouts` expirations the wait
returns and the loop breaks.  Returns the heartbeat writes and flush count. -/
def beatLoop (message : String) (sysStdoutHasFlush : Bool) : Nat → List String × Nat
  | 0 => ([], 0)
  | n + 1 =>
    let tail := beatLoop message sysStdoutHasFlush n
    (message :: tail.1, (if sysStdoutHasFlush then 1 else 0) + tail.2)

/-- Embedding of `run_subprocess`.  `spawn` is the outcome of
`subprocess.Popen`: an exception (executable not found, permission denied, …)
or a process handle.  A spawn failure propagates before the `with
redirect_stream(...)` blocks run, so no relay is started and nothing is
written.  On success, one relay is started per captured stream, the
wait/heartbeat loop runs, and the process's `returncode` is returned as a
normal value whatever its sign. -/
def run_subprocess (spawn : Except String Proc)
    (stdoutHasFlush stderrHasFlush sysStdoutHasFlush : Bool)
    (beat_freq : Option Nat) (message : String) :
    Except String Int × RunTrace :=
  match spawn with
  | .error e => (.error e, ⟨0, [], [], [], 0⟩)
  | .ok p =>
    let outRelay := redirectStreamRun stdoutHasFlush p.stdoutReads
    let errRelay := redirectStreamRun stderrHasFlush p.stderrReads
    let beats := match beat_freq with
      | none => ([], 0)
      | some _ => beatLoop message sysStdoutHasFlush p.timeoutsBeforeExit
    (.ok p.returncode, ⟨2, outRelay.events, errRelay.events, beats.1, beats.2⟩)

/-- The Python value given to the buffer resolver, one constructor per shape
the `isinstance` dispatch distinguishes, plus shapes matching none of them
(`None`, an `int`).  Text streams are represented by the text a full read
yields, byte streams by the bytes a full read yields. -/
inductive PyValue where
  | str (s : String)
  | textIo (content : String)
  | bytesVal (b : List Nat)
  | bufferedIo (b : List Nat)
  | noneVal
  | intVal (n : Int)
  deriving DecidableEq, Repr

/-- Errors raised by the resolver functions. -/
inductive PyError where
  | fileNotFound
  | valueError
  deriving DecidableEq, Repr

/-- The buffer returned by `get_string_buffer`: an in-memory `io.StringIO`
holding given text, an open file handle on a path whose full read yields the
given text, or the caller's own text stream passed through. -/
inductive Buffer where
  | stringIo (content : String)
  | file (path : String) (content : String)
  | passthrough (content : String)
  deriving DecidableEq, Repr

/-- Reading a resolved buffer to completion. -/
def Buffer.readAll : Buffer → String
  | .stringIo c => c
  | .file _ c => c
  | .passthrough c => c

/-- Embedding of the extension test
`path_or_content[-len(expected_extension)-1:] == ".%s" % expected_extension`:
the last `len(ext) + 1` characters of the string (the whole string when it is
shorter) compared with `"." ++ ext`. -/
def endsWithDotExt (s ext : String) : Bool :=
  s.drop (s.length - (ext.length + 1)) = "." ++ ext

/-- Embedding of `get_string_buffer(path_or_content, expected_extension)`.
`fs` is the filesystem (`os.path.isfile` and the bytes of each existing
file); `dec` is decoding with the configured encoding (`CONF.encoding`), used
both by `open(path, encoding=CONF.encoding)` and by `.decode(...)`. -/
def get_string_buffer (fs : String → Option (List Nat)) (dec : List Nat → String)
    (path_or_content : PyValue) (expected_extension : String) :
    Except PyError (Buffer × Option String) :=
  match path_or_content with
  | .str s =>
    if endsWithDotExt s expected_extension then
      match fs s with
      | none => .error .fileNotFound
      | some bs => .ok (.file s (dec bs), some s)
    else .ok (.stringIo s, none)
  | .textIo c => .ok (.passthrough c, none)
  | .bytesVal b => .ok (.stringIo (dec b), none)
  | .bufferedIo b => .ok (.stringIo (dec b), none)
  | .noneVal => .error .valueError
  | .intVal _ => .error .valueError

/-- The buffer returned by `to_buffer`: a file handle opened on a path, or
the input value passed through unchanged (whatever its type). -/
inductive TBuffer where
  | file (path : String) (content : String)
  | raw (v : PyValue)
  deriving DecidableEq, Repr

/-- Embedding of `to_buffer(buffer_or_path)` from `opyplus/util.py`:
a string must name an existing file; the file's bytes are run through
`chardet.detect` and the file is reopened with the detected encoding and
`errors="ignore"` (`detect` is the detector, `decodeIgnore enc bs` the
error-ignoring decode of `bs` under encoding label `enc`); any non-string
value is returned unchanged with a `None` path. -/
def to_buffer (fs : String → Option (List Nat)) (detect : List Nat → String)
    (decodeIgnore : String → List Nat → String) (buffer_or_path : PyValue) :
    Except PyError (Option String × TBuffer) :=
  match buffer_or_path with
  | .str s =>
    match fs s with
    | none => .error .fileNotFound
    | some bs => .ok (some s, .file s (decodeIgnore (detect bs) bs))
  | v => .ok (none, .raw v)

/-- Embedding of `to_buffer(buffer_or_path)` from `oplus/util.py` (the older
lineage): the path branch opens the file with the fixed configured encoding
(`open(buffer_or_path, encoding=CONF.encoding)`), the same `dec` used by
`get_string_buffer`; any non-string value is returned unchanged. -/
def to_buffer_oplus (fs : String → Option (List Nat)) (dec : List Nat → String)
    (buffer_or_path : PyValue) : Except PyError (Option String × TBuffer) :=
  match buffer_or_path with
  | .str s =>
    match fs s with
    | none => .error .fileNotFound
    | some bs => .ok (some s, .file s (dec bs))
  | v => .ok (none, .raw v)

/-- Embedding of Python `version_str.split(".")` over the character list:
groups between occurrences of `'.'`, so `"" ↦ [""]`, `"a..b" ↦ ["a","","b"]`. -/
def pySplitDot : List Char → List (List Char)
  | [] => [[]]
  | c :: rest =>
    let r := pySplitDot rest
    if c = '.' then [] :: r
    else match r with
      | [] => [[c]]
      | g :: gs => (c :: g) :: gs

/-- Embedding of `int(v)` restricted to the non-negative decimal literals the
function's docstring allows: a nonempty digit string parses to its value, and
anything else raises `ValueError` (modelled as `none`). -/
def pyInt (cs : List Char) : Option Nat :=
  if cs = [] then none
  else if cs.all (fun c => c.isDigit) then
    some (cs.foldl (fun n c => 10 * n + (c.toNat - 48)) 0)
  else none

/-- The list comprehension `[int(v) for v in version_str.split(".")]`: parse
each component in order, failing as soon as one `int(...)` raises. -/
def pyIntList : List (List Char) → Option (List Nat)
  | [] => some []
  | cs :: rest =>
    match pyInt cs, pyIntList rest with
    | some n, some ns => some (n :: ns)
    | _, _ => none

/-- Embedding of `version_str_to_version(version_str)`:
`[int(v) for v in version_str.split(".")] + [0]`, a `ValueError` when fewer
than three components result, else the first three as a tuple. -/
def version_str_to_version (version_str : String) :
    Except String (Nat × Nat × Nat) :=
  match pyIntList (pySplitDot version_str.data) with
  | none => .error "invalid literal for int"
  | some vs =>
    match vs ++ [0] with
    | a :: b :: c :: _ => .ok (a, b, c)
    | _ => .error ("incorrect format: " ++ version_str)

/-! ## Helper lemmas -/

theorem beatLoop_eq (message : String) (sysF : Bool) (n : Nat) :
    beatLoop message sysF n
      = (List.replicate n message, if sysF then n else 0) := by
  induction n with
  | zero => simp [beatLoop]
  | succ k ih =>
    simp only [beatLoop, ih, List.replicate_succ]
    cases sysF <;> simp [Nat.add_comm]

/-! ## Claim theorems -/

/-- C1: the supervisor's wait loop waits with timeout `beat_freq`; with
`beat_freq = none` the wait is unbounded and no heartbeat is ever written;
with `beat_freq = some _`, each timeout expiration writes `message` to the
stdout sink and flushes `sys.stdout` when it has a flush attribute; the
default message is `"subprocess is still running\n"`; on termination the
process's exit code is returned as a plain integer, a non-zero code being an
ordinary result and not an error. -/
theorem run_subprocess_heartbeat_and_exit (p : Proc)
    (soF seF sysF : Bool) (period : Nat) (msg : String) :
    (run_subprocess (.ok p) soF seF sysF none msg).1 = Except.ok p.returncode
  ∧ (run_subprocess (.ok p) soF seF sysF none msg).2.heartbeats = []
  ∧ (run_subprocess (.ok p) soF seF sysF (some period) msg).1
      = Except.ok p.returncode
  ∧ (run_subprocess (.ok p) soF seF sysF (some period) msg).2.heartbeats
      = List.replicate p.timeoutsBeforeExit msg
  ∧ (run_subprocess (.ok p) soF seF sysF (some period) msg).2.sysStdoutFlushes
      = (if sysF then p.timeoutsBeforeExit else 0)
  ∧ defaultBeatMessage = "subprocess is still running\n" := by
  refine ⟨rfl, rfl, rfl, ?_, ?_, rfl⟩ <;>
    simp [run_subprocess, beatLoop_eq]

/-- C2: for every finite read sequence, the destination sink receives exactly
the content of each read before the end-of-stream marker — the line itself,
or the placeholder `"unicode decode error"` when decoding raised — in the
original order, each write followed by a flush exactly when the destination
exposes a flush capability; a decode error is logged and never stops the
loop; a read whose content is the empty string terminates the loop. -/
theorem redirect_stream_forwards (hasFlush : Bool) (reads : List ReadResult) :
    (redirectStreamRun hasFlush reads).events
      = relayEventsOf hasFlush (consumedReads reads)
  ∧ (redirectStreamRun hasFlush reads).loggedErrors
      = countDecodeErrors (consumedReads reads) := by
  induction reads with
  | nil => simp [redirectStreamRun, consumedReads, relayEventsOf, countDecodeErrors]
  | cons r rest ih =>
    cases r with
    | line s =>
      by_cases hs : s = ""
      · subst hs
        simp [redirectStreamRun, consumedReads, readContent, relayEventsOf,
          countDecodeErrors]
      · simp [redirectStreamRun, consumedReads, readContent, hs, relayEventsOf,
          forwardEvents, countDecodeErrors, ih.1, ih.2]
    | decodeError =>
      simp [redirectStreamRun, consumedReads, readContent, relayEventsOf,
        forwardEvents, countDecodeErrors, ih.1, ih.2]

/-- C3: the relay checks the cooperative stop flag before each line read:
whatever state the task is in, once the flag is set the next loop boundary
stops it without performing another read (`pending` unchanged) and without
another write (`emitted` unchanged); releasing the handle — which sets the
flag and joins — therefore always ends with the task fully stopped. -/
theorem relay_cancellation (hasFlush : Bool) (s : RelayState) :
    (relayRelease hasFlush s).stopped = true
  ∧ (relayRelease hasFlush s).pending = s.pending
  ∧ (relayRelease hasFlush s).emitted = s.emitted := by
  rcases s with ⟨pending, emitted, stopped⟩
  cases stopped <;> simp [relayRelease, relayStep]

/-- C4: when the command cannot be started, `subprocess.Popen` raises before
the relay context managers run: the failure is returned to the caller with
no relay started, no event on either sink, no heartbeat and no flush. -/
theorem run_subprocess_spawn_failure (e : String)
    (soF seF sysF : Bool) (bf : Option Nat) (msg : String) :
    run_subprocess (.error e) soF seF sysF bf msg
      = (.error e, ⟨0, [], [], [], 0⟩) := rfl

/-- C5: a successful `get_string_buffer` returns a non-none path exactly when
the input was a string ending in `".<expected_extension>"`; a string without
that suffix is wrapped as literal in-memory content with path none whatever
the filesystem holds at that name; text streams, bytes and byte streams all
yield path none. -/
theorem get_string_buffer_path_invariant (fs : String → Option (List Nat))
    (dec : List Nat → String) (ext : String) :
    (∀ input r, get_string_buffer fs dec input ext = .ok r →
        (r.2 ≠ none ↔ ∃ s, input = .str s ∧ endsWithDotExt s ext = true))
  ∧ (∀ s, endsWithDotExt s ext = false →
        get_string_buffer fs dec (.str s) ext = .ok (.stringIo s, none))
  ∧ (∀ c, get_string_buffer fs dec (.textIo c) ext = .ok (.passthrough c, none))
  ∧ (∀ b, get_string_buffer fs dec (.bytesVal b) ext = .ok (.stringIo (dec b), none))
  ∧ (∀ b, get_string_buffer fs dec (.bufferedIo b) ext
        = .ok (.stringIo (dec b), none)) := by
  refine ⟨?_, ?_, fun c => rfl, fun b => rfl, fun b => rfl⟩
  · intro input r h
    cases input with
    | str s =>
      by_cases he : endsWithDotExt s ext = true
      · cases hfs : fs s with
        | none => simp [get_string_buffer, he, hfs] at h
        | some bs =>
          simp [get_string_buffer, he, hfs] at h
          subst h
          simp [he]
      · simp [get_string_buffer, he] at h
        subst h
        simp
        simpa using he
    | textIo c => simp [get_string_buffer] at h; subst h; simp
    | bytesVal b => simp [get_string_buffer] at h; subst h; simp
    | bufferedIo b => simp [get_string_buffer] at h; subst h; simp
    | noneVal => simp [get_string_buffer] at h
    | intVal n => simp [get_string_buffer] at h
  · intro s hs
    simp [get_string_buffer, hs]

/-- C5 witness: at a concrete filesystem holding a file named
`"hello world"`, resolving the string `"hello world"` (no `".idf"` suffix)
still yields literal content with path none, and the path-iff instantiates. -/
theorem get_string_buffer_path_invariant_witness :
    get_string_buffer (fun _ => some [65]) (fun _ => "A")
        (.str "hello world") "idf" = .ok (.stringIo "hello world", none)
  ∧ ((Buffer.stringIo "hello world", (none : Option String)).2 ≠ none ↔
      ∃ s, PyValue.str "hello world" = .str s ∧ endsWithDotExt s "idf" = true) :=
  ⟨(get_string_buffer_path_invariant (fun _ => some [65]) (fun _ => "A") "idf").2.1
      "hello world" (by decide),
   (get_string_buffer_path_invariant (fun _ => some [65]) (fun _ => "A") "idf").1
      (.str "hello world") (Buffer.stringIo "hello world", none)
      ((get_string_buffer_path_invariant (fun _ => some [65]) (fun _ => "A") "idf").2.1
        "hello world" (by decide))⟩

/-- C6: for a string input ending in `".<expected_extension>"`,
`get_string_buffer` raises `FileNotFoundError` exactly when no file exists at
that path; when one exists it opens it with the configured encoding and
returns the input string itself as the path. -/
theorem get_string_buffer_path_branch (fs : String → Option (List Nat))
    (dec : List Nat → String) (s ext : String)
    (h : endsWithDotExt s ext = true) :
    (get_string_buffer fs dec (.str s) ext = .error .fileNotFound ↔ fs s = none)
  ∧ (∀ bs, fs s = some bs →
      get_string_buffer fs dec (.str s) ext = .ok (.file s (dec bs), some s)) := by
  constructor
  · cases hfs : fs s <;> simp [get_string_buffer, h, hfs]
  · intro bs hbs
    simp [get_string_buffer, h, hbs]

/-- C6 witness: on an empty filesystem, resolving `"/no/such/file.idf"` with
expected extension `"idf"` fails with the not-found error. -/
theorem get_string_buffer_path_branch_witness :
    get_string_buffer (fun _ => none) (fun _ => "") (.str "/no/such/file.idf") "idf"
      = .error .fileNotFound :=
  (get_string_buffer_path_branch (fun _ => none) (fun _ => "")
    "/no/such/file.idf" "idf" (by decide)).1.mpr rfl

/-- C7: resolving raw bytes `b` wraps `dec b` — the decode under the same
configured encoding the resolver uses internally — in an in-memory string
buffer with path none, and reading that buffer to completion yields exactly
`dec b`. -/
theorem get_string_buffer_bytes_roundtrip (fs : String → Option (List Nat))
    (dec : List Nat → String) (ext : String) (b : List Nat) :
    get_string_buffer fs dec (.bytesVal b) ext = .ok (.stringIo (dec b), none)
  ∧ (Buffer.stringIo (dec b)).readAll = dec b :=
  ⟨rfl, rfl⟩

/-- A one-file filesystem holding the single byte `0xFF` at `"a.idf"`,
used to compare the two open paths concretely. -/
def fsOneByte : String → Option (List Nat) :=
  fun p => if p = "a.idf" then some [255] else none

/-- Model of decoding under the fixed configured encoding (`CONF.encoding`,
whose default is latin-1 in the lineage): byte `0xFF` decodes to `"ÿ"`. -/
def decFixedModel : List Nat → String :=
  fun bs => if bs = [255] then "ÿ" else ""

/-- Model of `chardet.detect` reporting `utf-8` on the lone byte. -/
def detectModel : List Nat → String := fun _ => "utf-8"

/-- Model of decoding with `errors="ignore"` under a detected encoding: the
undecodable byte `0xFF` is dropped, yielding the empty text. -/
def decIgnoreModel : String → List Nat → String := fun _ _ => ""

/-- C8 counterexample: the `opyplus` `to_buffer` path branch does not reuse
`get_string_buffer`'s open logic — it runs `chardet.detect` and reopens with
the detected encoding and `errors="ignore"`, while `get_string_buffer` opens
with the fixed `CONF.encoding`.  On the same one-byte file the two return
streams with different contents. -/
theorem to_buffer_encoding_mismatch :
    to_buffer fsOneByte detectModel decIgnoreModel (.str "a.idf")
      = .ok (some "a.idf", .file "a.idf" "")
  ∧ get_string_buffer fsOneByte decFixedModel (.str "a.idf") "idf"
      = .ok (.file "a.idf" "ÿ", some "a.idf")
  ∧ ("" : String) ≠ "ÿ" :=
  ⟨rfl, rfl, by decide⟩

/-- C8 amended: `to_buffer(path)` returns the path and an open stream and
`to_buffer(open_stream)` returns path none and the stream, so only the path
form has a non-none path; but only the `oplus`-lineage `to_buffer` reuses
`get_string_buffer`'s open logic (fixed configured encoding) on its path
branch, while the `opyplus` `to_buffer` auto-detects the encoding with
chardet and decodes ignoring errors, so its stream content is
`decodeIgnore (detect bytes) bytes` instead of `dec bytes`. -/
theorem to_buffer_structure (fs : String → Option (List Nat))
    (dec : List Nat → String) (detect : List Nat → String)
    (decodeIgnore : String → List Nat → String) :
    (∀ s bs, fs s = some bs →
        to_buffer fs detect decodeIgnore (.str s)
          = .ok (some s, .file s (decodeIgnore (detect bs) bs)))
  ∧ (∀ c, to_buffer fs detect decodeIgnore (.textIo c)
        = .ok (none, .raw (.textIo c)))
  ∧ (∀ s bs, fs s = some bs →
        to_buffer_oplus fs dec (.str s) = .ok (some s, .file s (dec bs)))
  ∧ (∀ s bs ext, fs s = some bs → endsWithDotExt s ext = true →
        get_string_buffer fs dec (.str s) ext
          = .ok (.file s (dec bs), some s)) := by
  refine ⟨?_, fun c => rfl, ?_, ?_⟩
  · intro s bs hbs
    simp [to_buffer, hbs]
  · intro s bs hbs
    simp [to_buffer_oplus, hbs]
  · intro s bs ext hbs he
    simp [get_string_buffer, he, hbs]

/-- C8 amended witness: on the concrete one-byte filesystem, `to_buffer` on
the path `"a.idf"` returns the path with the auto-detect stream, on a text
stream it returns path none, and the `oplus` variant's path stream carries
the same content `get_string_buffer` produces. -/
theorem to_buffer_structure_witness :
    to_buffer fsOneByte detectModel decIgnoreModel (.str "a.idf")
      = .ok (some "a.idf", .file "a.idf" (decIgnoreModel (detectModel [255]) [255]))
  ∧ to_buffer fsOneByte detectModel decIgnoreModel (.textIo "txt")
      = .ok (none, .raw (.textIo "txt"))
  ∧ to_buffer_oplus fsOneByte decFixedModel (.str "a.idf")
      = .ok (some "a.idf", .file "a.idf" (decFixedModel [255]))
  ∧ get_string_buffer fsOneByte decFixedModel (.str "a.idf") "idf"
      = .ok (.file "a.idf" (decFixedModel [255]), some "a.idf") :=
  ⟨(to_buffer_structure fsOneByte decFixedModel detectModel decIgnoreModel).1
      "a.idf" [255] (by decide),
   (to_buffer_structure fsOneByte decFixedModel detectModel decIgnoreModel).2.1 "txt",
   (to_buffer_structure fsOneByte decFixedModel detectModel decIgnoreModel).2.2.1
      "a.idf" [255] (by decide),
   (to_buffer_structure fsOneByte decFixedModel detectModel decIgnoreModel).2.2.2
      "a.idf" [255] "idf" (by decide) (by decide)⟩

/-- C9: `to_buffer` validates nothing about non-string inputs: it raises
exactly when its input is a string naming a nonexistent file; every
non-string value — a stream, but also `None` or an integer — is passed
through unchanged as `(None, value)`, whereas `get_string_buffer` raises
`ValueError` on values it cannot classify. -/
theorem to_buffer_no_type_validation (fs : String → Option (List Nat))
    (detect : List Nat → String) (decodeIgnore : String → List Nat → String)
    (dec : List Nat → String) (ext : String) (n : Int) :
    (∀ v, (∀ s, v ≠ .str s) →
        to_buffer fs detect decodeIgnore v = .ok (none, .raw v))
  ∧ (∀ s, fs s = none →
        to_buffer fs detect decodeIgnore (.str s) = .error .fileNotFound)
  ∧ (∀ s bs, fs s = some bs →
        to_buffer fs detect decodeIgnore (.str s)
          = .ok (some s, .file s (decodeIgnore (detect bs) bs)))
  ∧ to_buffer fs detect decodeIgnore .noneVal = .ok (none, .raw .noneVal)
  ∧ to_buffer fs detect decodeIgnore (.intVal n) = .ok (none, .raw (.intVal n))
  ∧ get_string_buffer fs dec .noneVal ext = .error .valueError
  ∧ get_string_buffer fs dec (.intVal n) ext = .error .valueError := by
  refine ⟨?_, ?_, ?_, rfl, rfl, rfl, rfl⟩
  · intro v hv
    cases v with
    | str s => exact absurd rfl (hv s)
    | textIo c => rfl
    | bytesVal b => rfl
    | bufferedIo b => rfl
    | noneVal => rfl
    | intVal m => rfl
  · intro s hs
    simp [to_buffer, hs]
  · intro s bs hbs
    simp [to_buffer, hbs]

/-- C9 witness: on the empty filesystem, `to_buffer` on `None` and on the
integer `7` passes them through unraised, `to_buffer` on the string
`"ghost.idf"` raises the not-found error, and `get_string_buffer` raises
`ValueError` on `None`. -/
theorem to_buffer_no_type_validation_witness :
    to_buffer (fun _ => none) detectModel decIgnoreModel .noneVal
      = .ok (none, .raw .noneVal)
  ∧ to_buffer (fun _ => none) detectModel decIgnoreModel (.intVal 7)
      = .ok (none, .raw (.intVal 7))
  ∧ to_buffer (fun _ => none) detectModel decIgnoreModel (.str "ghost.idf")
      = .error .fileNotFound
  ∧ get_string_buffer (fun _ => none) decFixedModel .noneVal "idf"
      = .error .valueError :=
  ⟨(to_buffer_no_type_validation (fun _ => none) detectModel decIgnoreModel
      decFixedModel "idf" 7).1 .noneVal (fun s h => by cases h),
   (to_buffer_no_type_validation (fun _ => none) detectModel decIgnoreModel
      decFixedModel "idf" 7).1 (.intVal 7) (fun s h => by cases h),
   (to_buffer_no_type_validation (fun _ => none) detectModel decIgnoreModel
      decFixedModel "idf" 7).2.1 "ghost.idf" rfl,
   (to_buffer_no_type_validation (fun _ => none) detectModel decIgnoreModel
      decFixedModel "idf" 7).2.2.2.2.2.1⟩

/-- C10: on a version string of dot-separated integer literals,
`version_str_to_version` appends one `0`, requires at least three resulting
components, and returns the first three: one component raises `ValueError`,
`"a.b"` yields `(a, b, 0)`, three components yield themselves, and components
past the third are dropped. -/
theorem version_str_to_version_spec (version_str : String) (vs : List Nat)
    (h : pyIntList (pySplitDot version_str.data) = some vs) :
    (vs.length = 1 →
        version_str_to_version version_str
          = .error ("incorrect format: " ++ version_str))
  ∧ (∀ a b, vs = [a, b] →
        version_str_to_version version_str = .ok (a, b, 0))
  ∧ (∀ a b c rest, vs = a :: b :: c :: rest →
        version_str_to_version version_str = .ok (a, b, c)) := by
  refine ⟨?_, ?_, ?_⟩
  · intro hlen
    match vs, hlen with
    | [a], _ => simp [version_str_to_version, h]
  · intro a b hab
    subst hab
    simp [version_str_to_version, h]
  · intro a b c rest habc
    subst habc
    simp [version_str_to_version, h]

/-- C10 witness: `"1.2.3.4"` parses to components `[1, 2, 3, 4]` and the
function silently truncates to `(1, 2, 3)`; applied again at `"5"`, the
single component raises the incorrect-format error. -/
theorem version_str_to_version_spec_witness :
    version_str_to_version "1.2.3.4" = .ok (1, 2, 3)
  ∧ version_str_to_version "5" = .error "incorrect format: 5" :=
  ⟨(version_str_to_version_spec "1.2.3.4" [1, 2, 3, 4] (by decide)).2.2
      1 2 3 [4] rfl,
   (version_str_to_version_spec "5" [5] (by decide)).1 rfl⟩

end Opyplus
